import Mathlib

/-!
Shallow embedding of the access-control policy of the real-estate app:
the Firestore security rules (service cloud.firestore) and the object
storage rules (service firebase.storage). Documents are finite
association lists from field names to values; the ambient request
context (request.auth, resource.data, request.resource.data, and the
result of the get() lookup of users/{request.auth.uid}) is passed
explicitly as a request descriptor. Every rule predicate is a total
computable Bool function, so evaluation can never raise and never
defaults to allow: absence of a satisfied allow condition is deny.
-/

/-- Scalar field values: strings, integers and booleans. -/
inductive Atom where
  | str : String → Atom
  | int : Int → Atom
  | boolean : Bool → Atom
deriving DecidableEq

/-- Field values of a document: scalars and lists of scalars (the rules
only ever inspect scalar fields and lists of scalars such as savedBy, so
deeper nesting is not modelled). -/
inductive Value where
  | str : String → Value
  | int : Int → Value
  | boolean : Bool → Value
  | list : List Atom → Value
deriving DecidableEq

/-- A document is an association list from field names to values. -/
abbrev Doc := List (String × Value)

/-- Field lookup: first binding of the key wins. -/
def getF : Doc → String → Option Value
  | [], _ => none
  | (k, v) :: rest, key => if k == key then some v else getF rest key

/-- The field names of a document. -/
def keys (d : Doc) : List String := d.map Prod.fst

/-- String-typed field access: errors (wrong type, missing field) become none,
mirroring the rules language where a failed field access makes the enclosing
boolean expression evaluate to false. -/
def getStr (d : Doc) (k : String) : Option String :=
  match getF d k with
  | some (Value.str s) => some s
  | _ => none

/-- Integer-typed field access, same error convention as getStr. -/
def getInt (d : Doc) (k : String) : Option Int :=
  match getF d k with
  | some (Value.int n) => some n
  | _ => none

/-- Whether an optional value is a list, as in the rules expression
request.resource.data.savedBy is list. -/
def isListV : Option Value → Bool
  | some (Value.list _) => true
  | _ => false

/-- The change set of an update:
request.resource.data.diff(resource.data).affectedKeys(), the set of field
names whose values differ between the existing and the proposed document.
Returned as a duplicate-free list. -/
def affectedKeys (e p : Doc) : List String :=
  ((keys e ++ keys p).dedup).filter (fun k => decide (¬ getF e k = getF p k))

/-- The rules method set.hasOnly(list): every member of the set occurs in
the list (a subset test, not an equality test). -/
def hasOnly (l allowed : List String) : Bool :=
  l.all (fun k => allowed.contains k)

/-- The rules method list.removeAll(other): remove every occurrence of each
value of other, by value. -/
def removeAll (xs ys : List Atom) : List Atom :=
  xs.filter (fun x => !(ys.contains x))

/-- getUserRole(): the role field of the users/{request.auth.uid} document;
none when the lookup returned no document or the field is absent or not a
string, in which case every role comparison in the rules errors to false. -/
def getUserRole : Option Doc → Option String
  | some d => getStr d "role"
  | none => none

/-- isAgent(): role is agent or admin. -/
def isAgent (userDoc : Option Doc) : Bool :=
  getUserRole userDoc == some "agent" || getUserRole userDoc == some "admin"

/-- isAdmin(): hasRole(admin). -/
def isAdmin (userDoc : Option Doc) : Bool :=
  getUserRole userDoc == some "admin"

/-- isValidSavedByUpdate(): the savedBy diff validator defined in the rule
set. incoming is request.resource.data, existing is resource.data,
targetExists is exists(request.path). The function requires savedBy to be
present and list-typed and, for an existing target, that exactly one
element was added or exactly one removed (by multiset difference). -/
def isValidSavedByUpdate (incoming existing : Doc) (targetExists : Bool) : Bool :=
  match getF incoming "savedBy" with
  | some (Value.list inc) =>
    !targetExists ||
    (match getF existing "savedBy" with
     | some (Value.list ex) =>
       (inc.length == ex.length + 1 && (removeAll inc ex).length == 1) ||
       (inc.length + 1 == ex.length && (removeAll ex inc).length == 1)
     | _ => false)
  | _ => false

/-- viewsIncremented: request.resource.data.views == resource.data.views + 1,
false when either side is missing or not an integer (a rules error). -/
def viewsIncremented (e p : Doc) : Bool :=
  match getInt e "views", getInt p "views" with
  | some ev, some pv => pv == ev + 1
  | _, _ => false

/-- The operations of the rules language; write covers create, update and
delete. -/
inductive Op where
  | read : Op
  | create : Op
  | update : Op
  | delete : Op
deriving DecidableEq

/-- The collections governed by the Firestore rule set. -/
inductive Coll where
  | users : Coll
  | agents : Coll
  | properties : Coll
  | inquiries : Coll
  | propertyViews : Coll
deriving DecidableEq

/-- A request descriptor: collection, document id, authentication
(subject id, none when unauthenticated), the result of the users/{uid}
profile lookup used for role resolution (none when the document is missing
or the fetch failed), operation, existing document (none when absent) and
proposed document (none on read and delete). -/
structure Request where
  coll : Coll
  docId : String
  auth : Option String
  userDoc : Option Doc
  op : Op
  existing : Option Doc
  proposed : Option Doc
deriving DecidableEq

/-- allow update for properties/{propertyId}: owner full write, or a
views-only increment by one, or a savedBy-only change whose proposed value
is a list. -/
def propertiesUpdate (uid : String) (e p : Doc) : Bool :=
  (getF e "agentId" == some (Value.str uid)) ||
  (hasOnly (affectedKeys e p) ["views"] && viewsIncremented e p) ||
  (hasOnly (affectedKeys e p) ["savedBy"] && isListV (getF p "savedBy"))

/-- allow delete for properties/{propertyId}: owner only. -/
def propertiesDelete (uid : String) (e : Doc) : Bool :=
  getF e "agentId" == some (Value.str uid)

/-- allow read for inquiries/{inquiryId}: buyer or target agent. -/
def inquiriesRead (uid : String) (d : Doc) : Bool :=
  (getF d "userId" == some (Value.str uid)) ||
  (getF d "agentId" == some (Value.str uid))

/-- allow update for inquiries/{inquiryId}: target agent or admin. -/
def inquiriesUpdate (uid : String) (userDoc : Option Doc) (d : Doc) : Bool :=
  (getF d "agentId" == some (Value.str uid)) || isAdmin userDoc

/-- The Firestore policy engine: evaluates one request descriptor to a
decision, true for ALLOW and false for DENY. Each collection arm is the
disjunction of the allow conditions of the rule set; field-access and
lookup errors surface as false, never as an exception. -/
def evaluate (r : Request) : Bool :=
  match r.coll with
  | Coll.users =>
    match r.op with
    | Op.read => true
    | _ => r.auth == some r.docId
  | Coll.agents =>
    match r.op with
    | Op.read => true
    | _ => r.auth == some r.docId && isAgent r.userDoc
  | Coll.properties =>
    match r.op with
    | Op.read => true
    | Op.create => r.auth.isSome
    | Op.update =>
      match r.auth, r.existing, r.proposed with
      | some uid, some e, some p => propertiesUpdate uid e p
      | _, _, _ => false
    | Op.delete =>
      match r.auth, r.existing with
      | some uid, some e => propertiesDelete uid e
      | _, _ => false
  | Coll.inquiries =>
    match r.op with
    | Op.create => r.auth.isSome
    | Op.read =>
      match r.auth, r.existing with
      | some uid, some d => inquiriesRead uid d
      | _, _ => false
    | Op.update =>
      match r.auth, r.existing with
      | some uid, some d => inquiriesUpdate uid r.userDoc d
      | _, _ => false
    | Op.delete =>
      match r.auth with
      | some _ => isAdmin r.userDoc
      | none => false
  | Coll.propertyViews => true

/-- A stored file as seen by the storage rules: content type and size. -/
structure FileResource where
  contentType : String
  size : Nat
deriving DecidableEq

/-- isValidFile(): image content type below the 5 MiB ceiling. The rules
regex image/.* is a full match, equivalent to an image/ prefix; on a delete
request.resource is absent and the check errors to false. -/
def isValidFile : Option FileResource → Bool
  | some f =>
    "image/".data.isPrefixOf f.contentType.data && f.size < 5 * 1024 * 1024
  | none => false

/-- The object storage paths governed by the storage rule set, each with
its path-embedded owner segment. -/
inductive StoragePath where
  | propertyImages : String → String → StoragePath
  | agentPhotos : String → StoragePath
  | userImages : String → String → StoragePath
deriving DecidableEq

/-- The storage policy engine: one decision per request, true for ALLOW.
Property images separate create (validated) from update and delete (owner
match only); agent photos and user images use a single write rule that
requires owner match and a valid file for create, update and delete alike. -/
def storageEvaluate (path : StoragePath) (op : Op) (auth : Option String)
    (res : Option FileResource) : Bool :=
  match path with
  | StoragePath.propertyImages userId _ =>
    match op with
    | Op.read => true
    | Op.create => auth.isSome && isValidFile res
    | Op.update => auth == some userId
    | Op.delete => auth == some userId
  | StoragePath.agentPhotos userId =>
    match op with
    | Op.read => true
    | _ => auth == some userId && isValidFile res
  | StoragePath.userImages userId _ =>
    match op with
    | Op.read => true
    | _ => auth == some userId && isValidFile res

/-- Existing properties document for the savedBy swap scenario. -/
def c1Existing : Doc :=
  [("agentId", Value.str "agent1"), ("savedBy", Value.list [Atom.str "u1"])]

/-- Proposed document replacing u1 by u2 in savedBy, all else unchanged. -/
def c1Proposed : Doc :=
  [("agentId", Value.str "agent1"), ("savedBy", Value.list [Atom.str "u2"])]

/-- Existing document for the double-add scenario. -/
def c1bExisting : Doc :=
  [("agentId", Value.str "agent1"),
   ("savedBy", Value.list [Atom.str "u1", Atom.str "u2"])]

/-- Proposed document adding two elements to savedBy in one write. -/
def c1bProposed : Doc :=
  [("agentId", Value.str "agent1"),
   ("savedBy", Value.list [Atom.str "u1", Atom.str "u2", Atom.str "u3", Atom.str "u4"])]

/-- A properties document with a list-typed savedBy, used for the
empty-change-set scenario. -/
def c2Doc : Doc :=
  [("agentId", Value.str "agent1"), ("savedBy", Value.list [Atom.str "u1"])]

/-- Existing document for the views-jump scenario. -/
def c3Existing : Doc := [("agentId", Value.str "a1"), ("views", Value.int 0)]

/-- Proposed document jumping views from 0 to 5. -/
def c3Proposed : Doc := [("agentId", Value.str "a1"), ("views", Value.int 5)]

/-- A fixed sample request descriptor. -/
def sampleRequest : Request :=
  ⟨Coll.properties, "p1", some "u1", none, Op.read, none, none⟩

/-- An inquiry document whose target agent is a2 and whose buyer is b1. -/
def c4Inquiry : Doc :=
  [("agentId", Value.str "a2"), ("userId", Value.str "b1")]

/-- A users profile document carrying the admin role. -/
def adminProfile : Doc := [("role", Value.str "admin")]

/-- An inquiry document whose buyer is buyer1 and whose agent is agent1. -/
def c6Inquiry : Doc :=
  [("userId", Value.str "buyer1"), ("agentId", Value.str "agent1")]

lemma getF_eq_none_of_not_mem (d : Doc) (k : String) (h : k ∉ keys d) :
    getF d k = none := by
  induction d with
  | nil => rfl
  | cons hd t ih =>
    obtain ⟨k1, v⟩ := hd
    simp only [keys, List.map_cons, List.mem_cons, not_or] at h
    have hne : (k1 == k) = false := by
      refine beq_eq_false_iff_ne.mpr ?_
      intro hk
      exact h.1 hk.symm
    simp only [getF, hne, Bool.false_eq_true, if_false]
    exact ih h.2

lemma mem_of_getF_ne_none (d : Doc) (k : String) (h : ¬ getF d k = none) :
    k ∈ keys d := by
  by_contra hc
  exact h (getF_eq_none_of_not_mem d k hc)

lemma affectedKeys_nodup (e p : Doc) : (affectedKeys e p).Nodup :=
  (List.nodup_dedup (keys e ++ keys p)).filter _

lemma getF_eq_of_affectedKeys_nil (e p : Doc) (h : affectedKeys e p = [])
    (k : String) : getF e k = getF p k := by
  by_contra hne
  have hk : k ∈ keys e ++ keys p := by
    rcases Option.eq_none_or_eq_some (getF e k) with he | ⟨v, hv⟩
    · have hp : ¬ getF p k = none := by
        intro hp
        exact hne (he.trans hp.symm)
      exact List.mem_append.mpr (Or.inr (mem_of_getF_ne_none p k hp))
    · have he : ¬ getF e k = none := by simp [hv]
      exact List.mem_append.mpr (Or.inl (mem_of_getF_ne_none e k he))
  have hmem : k ∈ affectedKeys e p := by
    refine List.mem_filter.mpr ⟨List.mem_dedup.mpr hk, ?_⟩
    exact decide_eq_true hne
  rw [h] at hmem
  exact absurd hmem (List.not_mem_nil k)

lemma hasOnly_single (l : List String) (k : String) (hnd : l.Nodup)
    (h : hasOnly l [k] = true) : l = [] ∨ l = [k] := by
  have hall : ∀ x ∈ l, x = k := by
    intro x hx
    have := List.all_eq_true.mp h x hx
    simpa [List.contains_cons] using this
  rcases l with _ | ⟨a, t⟩
  · exact Or.inl rfl
  · right
    have ha : a = k := hall a (List.mem_cons_self a t)
    have ht : t = [] := by
      rcases t with _ | ⟨b, t2⟩
      · rfl
      · have hb : b = k := hall b (by simp)
        have : a ∉ b :: t2 := (List.nodup_cons.mp hnd).1
        exact absurd (by simp [ha, hb]) this
    rw [ha, ht]

lemma hasOnly_single_false (l : List String) (k : String) (hnd : l.Nodup)
    (h0 : ¬ l = []) (h1 : ¬ l = [k]) : hasOnly l [k] = false := by
  cases hb : hasOnly l [k]
  · rfl
  · rcases hasOnly_single l k hnd hb with h | h
    · exact absurd h h0
    · exact absurd h h1

lemma viewsIncremented_eq_false_of_eq (e p : Doc)
    (h : getF e "views" = getF p "views") : viewsIncremented e p = false := by
  unfold viewsIncremented getInt
  rw [h]
  cases hv : getF p "views" with
  | none => rfl
  | some v =>
    cases v with
    | str s => rfl
    | boolean b => rfl
    | list l => rfl
    | int n =>
      simp only [beq_eq_false_iff_ne, ne_eq]
      omega

/-- Claim C1 (code bug): the deployed update rule for a properties change
set of exactly savedBy accepts any list-typed savedBy value and never
invokes the isValidSavedByUpdate validator defined in the same rule set:
replacing u1 by u2 in one write, and adding two ids in one write, are both
ALLOW for an authenticated non-owner, while the validator rejects both. -/
theorem C1_savedBy_single_element_violated :
    affectedKeys c1Existing c1Proposed = ["savedBy"] ∧
    evaluate ⟨Coll.properties, "p1", some "u9", none, Op.update,
      some c1Existing, some c1Proposed⟩ = true ∧
    isValidSavedByUpdate c1Proposed c1Existing true = false ∧
    affectedKeys c1bExisting c1bProposed = ["savedBy"] ∧
    evaluate ⟨Coll.properties, "p1", some "u9", none, Op.update,
      some c1bExisting, some c1bProposed⟩ = true ∧
    isValidSavedByUpdate c1bProposed c1bExisting true = false := by decide

/-- Claim C2 counterexample: an authenticated non-owner update whose change
set is empty (proposed equals existing, which is neither exactly views nor
exactly savedBy) on a document whose savedBy field is a list is ALLOW,
because hasOnly is a subset test and the empty change set passes the
savedBy branch; the claim requires DENY there. -/
theorem C2_counterexample :
    affectedKeys c2Doc c2Doc = [] ∧
    ¬ getF c2Doc "agentId" = some (Value.str "u9") ∧
    evaluate ⟨Coll.properties, "p1", some "u9", none, Op.update,
      some c2Doc, some c2Doc⟩ = true := by decide

/-- Claim C2 (amended): for an update or delete on properties by an
authenticated principal uid with existing.agentId different from uid and a
change set that is not exactly views and not exactly savedBy, the update
decision equals the empty-change-set escape (the change set is empty and
the savedBy field of the document is a list) and the delete decision is
DENY; in particular every such request with a nonempty change set is
DENY. -/
theorem C2_ownership_deny (uid docId : String) (ud : Option Doc) (e p : Doc)
    (hown : ¬ getF e "agentId" = some (Value.str uid))
    (hv : ¬ affectedKeys e p = ["views"])
    (hs : ¬ affectedKeys e p = ["savedBy"]) :
    evaluate ⟨Coll.properties, docId, some uid, ud, Op.update, some e, some p⟩ =
      (decide (affectedKeys e p = []) && isListV (getF p "savedBy")) ∧
    evaluate ⟨Coll.properties, docId, some uid, ud, Op.delete, some e, none⟩ = false := by
  have howner : (getF e "agentId" == some (Value.str uid)) = false :=
    beq_eq_false_iff_ne.mpr hown
  constructor
  · show propertiesUpdate uid e p = _
    by_cases hnil : affectedKeys e p = []
    · have hfe : getF e "views" = getF p "views" :=
        getF_eq_of_affectedKeys_nil e p hnil "views"
      have hvf : viewsIncremented e p = false :=
        viewsIncremented_eq_false_of_eq e p hfe
      simp [propertiesUpdate, hnil, howner, hvf, hasOnly]
    · have h1 : hasOnly (affectedKeys e p) ["views"] = false :=
        hasOnly_single_false _ _ (affectedKeys_nodup e p) hnil hv
      have h2 : hasOnly (affectedKeys e p) ["savedBy"] = false :=
        hasOnly_single_false _ _ (affectedKeys_nodup e p) hnil hs
      simp [propertiesUpdate, howner, h1, h2, hnil]
  · show propertiesDelete uid e = false
    simp [propertiesDelete, howner]

/-- Witness for C2_ownership_deny at a concrete empty-change-set input. -/
theorem C2_ownership_deny_witness :
    evaluate ⟨Coll.properties, "p1", some "u9", none, Op.update,
      some c2Doc, some c2Doc⟩ =
      (decide (affectedKeys c2Doc c2Doc = []) && isListV (getF c2Doc "savedBy")) ∧
    evaluate ⟨Coll.properties, "p1", some "u9", none, Op.delete,
      some c2Doc, none⟩ = false :=
  C2_ownership_deny "u9" "p1" none c2Doc c2Doc (by decide) (by decide) (by decide)

/-- Claim C3 counterexample: the owner may jump the views counter from 0 to
5 in a views-only update, granted by the ownership branch, so the claimed
ALLOW-iff-increment-by-one fails for the owner principal. -/
theorem C3_counterexample :
    affectedKeys c3Existing c3Proposed = ["views"] ∧
    evaluate ⟨Coll.properties, "p1", some "a1", none, Op.update,
      some c3Existing, some c3Proposed⟩ = true ∧
    viewsIncremented c3Existing c3Proposed = false := by decide

/-- Claim C3 (amended): an update on properties whose change set is exactly
views is, for an authenticated requester, ALLOW iff the requester is the
owner or views is incremented by exactly one; for an unauthenticated
requester it is DENY. -/
theorem C3_views_by_one (uid docId : String) (ud : Option Doc) (e p : Doc)
    (h : affectedKeys e p = ["views"]) :
    evaluate ⟨Coll.properties, docId, some uid, ud, Op.update, some e, some p⟩ =
      ((getF e "agentId" == some (Value.str uid)) || viewsIncremented e p) ∧
    evaluate ⟨Coll.properties, docId, none, ud, Op.update, some e, some p⟩ = false := by
  constructor
  · show propertiesUpdate uid e p = _
    simp [propertiesUpdate, h, hasOnly]
  · rfl

/-- Witness for C3_views_by_one at a concrete views-only update. -/
theorem C3_views_by_one_witness :
    evaluate ⟨Coll.properties, "p1", some "u9", none, Op.update,
      some c3Existing, some c3Proposed⟩ =
      ((getF c3Existing "agentId" == some (Value.str "u9")) ||
        viewsIncremented c3Existing c3Proposed) ∧
    evaluate ⟨Coll.properties, "p1", none, none, Op.update,
      some c3Existing, some c3Proposed⟩ = false :=
  C3_views_by_one "u9" "p1" none c3Existing c3Proposed (by decide)

/-- Claim C4 (confirmed): fail-closed role resolution. When the users
profile lookup yields no role (missing document, failed fetch, or absent
role field), every non-read write to agents is DENY, an inquiries update by
a requester who is not the target agent is DENY, and an inquiries delete is
DENY for authenticated and unauthenticated requesters alike. The engine is
a total Bool function, so evaluation never raises and never defaults to
ALLOW. -/
theorem C4_fail_closed (uid docId : String) (ud : Option Doc) (op : Op)
    (e p : Option Doc) (d : Doc)
    (hrole : getUserRole ud = none) (hop : ¬ op = Op.read)
    (hag : ¬ getF d "agentId" = some (Value.str uid)) :
    evaluate ⟨Coll.agents, docId, some uid, ud, op, e, p⟩ = false ∧
    evaluate ⟨Coll.inquiries, docId, some uid, ud, Op.update, some d, p⟩ = false ∧
    evaluate ⟨Coll.inquiries, docId, some uid, ud, Op.delete, some d, none⟩ = false ∧
    evaluate ⟨Coll.inquiries, docId, none, ud, Op.delete, some d, none⟩ = false := by
  have hagb : (getF d "agentId" == some (Value.str uid)) = false :=
    beq_eq_false_iff_ne.mpr hag
  refine ⟨?_, ?_, ?_, rfl⟩
  · cases op with
    | read => exact absurd rfl hop
    | create =>
      show (some uid == some docId && isAgent ud) = false
      simp [isAgent, hrole]
    | update =>
      show (some uid == some docId && isAgent ud) = false
      simp [isAgent, hrole]
    | delete =>
      show (some uid == some docId && isAgent ud) = false
      simp [isAgent, hrole]
  · show inquiriesUpdate uid ud d = false
    simp [inquiriesUpdate, isAdmin, hrole, hagb]
  · show isAdmin ud = false
    simp [isAdmin, hrole]

/-- Witness for C4_fail_closed with a missing profile document. -/
theorem C4_fail_closed_witness :
    evaluate ⟨Coll.agents, "u1", some "u1", none, Op.create, none, none⟩ = false ∧
    evaluate ⟨Coll.inquiries, "u1", some "u1", none, Op.update, some c4Inquiry, none⟩ = false ∧
    evaluate ⟨Coll.inquiries, "u1", some "u1", none, Op.delete, some c4Inquiry, none⟩ = false ∧
    evaluate ⟨Coll.inquiries, "u1", none, none, Op.delete, some c4Inquiry, none⟩ = false :=
  C4_fail_closed "u1" "u1" none Op.create none none c4Inquiry rfl
    (by decide) (by decide)

/-- Claim C5 (confirmed): an authenticated principal may write any content
to its own users profile, a role field of agent or admin included, whatever
its current role-lookup result ud0 (none, user, or anything else): the
users write rule checks ownership only. Once the profile lookup yields
agent or admin, the principal may write its own agents document: the rule
set permits self-elevation into the agents collection. -/
theorem C5_self_elevation (uid : String) (ud0 ud : Option Doc) (op : Op)
    (e p : Option Doc) (hrole : isAgent ud = true) :
    evaluate ⟨Coll.users, uid, some uid, ud0, op, e, p⟩ = true ∧
    evaluate ⟨Coll.agents, uid, some uid, ud, op, e, p⟩ = true := by
  constructor
  · cases op <;> simp [evaluate]
  · cases op <;> simp [evaluate, hrole]

/-- Witness for C5_self_elevation: a roleless user (profile lookup still
empty, ud0 = none) writes the admin role into its own profile, then with
the lookup now returning that role writes its agents document. -/
theorem C5_self_elevation_witness :
    evaluate ⟨Coll.users, "u1", some "u1", none, Op.update,
      none, some adminProfile⟩ = true ∧
    evaluate ⟨Coll.agents, "u1", some "u1", some adminProfile, Op.update,
      none, some adminProfile⟩ = true :=
  C5_self_elevation "u1" none (some adminProfile) Op.update none
    (some adminProfile) (by decide)

/-- Claim C6 (confirmed): a read of an inquiry by an authenticated
principal that is neither the buyer nor the target agent is DENY regardless
of the role-lookup result, admin included: the read rule never consults the
role. -/
theorem C6_inquiry_visibility (uid docId : String) (ud : Option Doc)
    (d : Doc) (p : Option Doc)
    (hu : ¬ getF d "userId" = some (Value.str uid))
    (ha : ¬ getF d "agentId" = some (Value.str uid)) :
    evaluate ⟨Coll.inquiries, docId, some uid, ud, Op.read, some d, p⟩ = false := by
  have hub : (getF d "userId" == some (Value.str uid)) = false :=
    beq_eq_false_iff_ne.mpr hu
  have hab : (getF d "agentId" == some (Value.str uid)) = false :=
    beq_eq_false_iff_ne.mpr ha
  show inquiriesRead uid d = false
  simp [inquiriesRead, hub, hab]

/-- Witness for C6_inquiry_visibility: an admin principal reading an
inquiry of two other parties is denied. -/
theorem C6_inquiry_visibility_witness :
    evaluate ⟨Coll.inquiries, "i1", some "u3", some adminProfile, Op.read,
      some c6Inquiry, none⟩ = false :=
  C6_inquiry_visibility "u3" "i1" (some adminProfile) c6Inquiry none
    (by decide) (by decide)

/-- Claim C7 counterexample: an owner update of its own agent-photos path
with a non-image file is DENY, and an owner delete there is DENY, because
the single write rule of that path also requires isValidFile; the claim
states that the path-embedded owner match is the only condition on update
and delete. -/
theorem C7_counterexample :
    storageEvaluate (StoragePath.agentPhotos "u1") Op.update (some "u1")
      (some ⟨"text/plain", 10⟩) = false ∧
    storageEvaluate (StoragePath.agentPhotos "u1") Op.delete (some "u1")
      none = false := by decide

/-- Claim C7 (amended): update and delete on properties/{ownerId}/{fileId}
are ALLOW iff the requester is authenticated as ownerId; on
agent-photos/{ownerId} and users/{ownerId}/{fileId} the write rule also
requires the proposed file to pass the image validator, so update further
requires a valid image file and delete, which carries no proposed file, is
always DENY. -/
theorem C7_storage_owner (owner imageId : String) (auth : Option String)
    (res : Option FileResource) :
    (storageEvaluate (StoragePath.propertyImages owner imageId) Op.update
      auth res = (auth == some owner)) ∧
    (storageEvaluate (StoragePath.propertyImages owner imageId) Op.delete
      auth res = (auth == some owner)) ∧
    (storageEvaluate (StoragePath.agentPhotos owner) Op.update auth res =
      ((auth == some owner) && isValidFile res)) ∧
    (storageEvaluate (StoragePath.agentPhotos owner) Op.delete auth none = false) ∧
    (storageEvaluate (StoragePath.userImages owner imageId) Op.update auth res =
      ((auth == some owner) && isValidFile res)) ∧
    (storageEvaluate (StoragePath.userImages owner imageId) Op.delete auth none = false) := by
  refine ⟨rfl, rfl, rfl, ?_, rfl, ?_⟩
  · show ((auth == some owner) && isValidFile none) = false
    simp [isValidFile]
  · show ((auth == some owner) && isValidFile none) = false
    simp [isValidFile]

/-- Claim C8 (confirmed): a create of a property image by an authenticated
requester with size exactly 5 * 1024 * 1024 bytes is DENY (the ceiling is a
strict less-than), and with size 5 * 1024 * 1024 - 1 and content type
image/png it is ALLOW. -/
theorem C8_size_boundary (uid owner imageId ct : String) :
    storageEvaluate (StoragePath.propertyImages owner imageId) Op.create
      (some uid) (some ⟨ct, 5 * 1024 * 1024⟩) = false ∧
    storageEvaluate (StoragePath.propertyImages owner imageId) Op.create
      (some uid) (some ⟨"image/png", 5 * 1024 * 1024 - 1⟩) = true := by
  constructor
  · show (true && isValidFile (some ⟨ct, 5 * 1024 * 1024⟩)) = false
    simp [isValidFile]
  · show (true && isValidFile (some ⟨"image/png", 5 * 1024 * 1024 - 1⟩)) = true
    decide

/-- Claim C9 (confirmed): the engine is a pure function of the request
descriptor, which carries the principal, the role-lookup result and both
document states: two evaluations of equal descriptors yield equal
decisions, and no state persists across evaluations. -/
theorem C9_deterministic (r1 r2 : Request) (h : r1 = r2) :
    evaluate r1 = evaluate r2 := by rw [h]

/-- Witness for C9_deterministic at a fixed request descriptor. -/
theorem C9_deterministic_witness :
    evaluate sampleRequest = evaluate sampleRequest :=
  C9_deterministic sampleRequest sampleRequest rfl

/-- Claim C10 (confirmed): a read on users, agents, properties and
propertyViews is ALLOW for every principal, the anonymous one included, and
for every document and role-lookup result: these collections, user profiles
with their role fields included, are world-readable. -/
theorem C10_world_readable (docId : String) (auth : Option String)
    (ud e p : Option Doc) :
    evaluate ⟨Coll.users, docId, auth, ud, Op.read, e, p⟩ = true ∧
    evaluate ⟨Coll.agents, docId, auth, ud, Op.read, e, p⟩ = true ∧
    evaluate ⟨Coll.properties, docId, auth, ud, Op.read, e, p⟩ = true ∧
    evaluate ⟨Coll.propertyViews, docId, auth, ud, Op.read, e, p⟩ = true :=
  ⟨rfl, rfl, rfl, rfl⟩
